import Mathlib

set_option maxHeartbeats 1000000

/-!
Shallow embedding of the Data Vision Pro dashboard-builder logic
(`src/dvp_main2/src/components/DashboardBuilder.tsx`) and of the
`apiHistory` Convex mutations, together with theorems checking the
repository's specification claims against it.
-/

/-- JSON values as produced by `JSON.parse`: null, booleans, numbers,
strings, arrays and objects.  Numbers are modelled exactly as rationals;
IEEE-754 rounding is not modelled and no claim below depends on it.
Object entries are kept as a list in the engine's for-in enumeration
order. -/
inductive Json where
  | null : Json
  | bool : Bool → Json
  | num : ℚ → Json
  | str : String → Json
  | arr : List Json → Json
  | obj : List (String × Json) → Json

/-- Whitespace stripped by the JavaScript `Number(string)` coercion
(ASCII fragment; the exotic Unicode space code points are not modelled). -/
def jsWhitespace (c : Char) : Bool :=
  c = ' ' || c = '\t' || c = '\n' || c = '\r' || c = '\x0b' || c = '\x0c'

/-- Numeric value of a decimal digit character. -/
def digitVal (c : Char) : Nat := c.toNat - '0'.toNat

/-- Value of a list of decimal digit characters, most significant first. -/
def digitsToNat (ds : List Char) : Nat :=
  ds.foldl (fun a c => a * 10 + digitVal c) 0

/-- Signed decimal exponent digits (after the `e`/`E`). -/
def parseSignedExp (cs : List Char) : Option Int :=
  match cs with
  | '+' :: ds => if !ds.isEmpty && ds.all Char.isDigit then some (digitsToNat ds) else none
  | '-' :: ds => if !ds.isEmpty && ds.all Char.isDigit then some (-(digitsToNat ds : Int)) else none
  | ds => if !ds.isEmpty && ds.all Char.isDigit then some (digitsToNat ds) else none

/-- Optional exponent part of a JavaScript decimal literal; the whole
remaining input must be consumed. -/
def parseExpPart : List Char → Option Int
  | [] => some 0
  | 'e' :: rest => parseSignedExp rest
  | 'E' :: rest => parseSignedExp rest
  | _ => none

/-- Unsigned JavaScript decimal literal `digits [. digits] [exp]` or
`. digits [exp]`, evaluated exactly in `ℚ`. -/
def parseUnsignedDec (cs : List Char) : Option ℚ :=
  let intDs := cs.takeWhile Char.isDigit
  let rest := cs.dropWhile Char.isDigit
  match rest with
  | '.' :: rest2 =>
    let fracDs := rest2.takeWhile Char.isDigit
    let rest3 := rest2.dropWhile Char.isDigit
    if intDs.isEmpty && fracDs.isEmpty then none
    else
      (parseExpPart rest3).map (fun e =>
        ((digitsToNat intDs : ℚ) + (digitsToNat fracDs : ℚ) / (10 : ℚ) ^ fracDs.length)
          * (10 : ℚ) ^ e)
  | r =>
    if intDs.isEmpty then none
    else (parseExpPart r).map (fun e => (digitsToNat intDs : ℚ) * (10 : ℚ) ^ e)

/-- Model of the ECMAScript `Number(string)` coercion, returning `some q`
exactly when the coercion yields a number rather than `NaN` (so that
`(jsStringToNum s).isSome` embeds the source's `!isNaN(Number(s))`).
It covers the whitespace-trimmed finite decimal literals and the empty
string (which coerces to `0`); the `Infinity` forms and hex/octal/binary
literals are not modelled, and no claim below involves them. -/
def jsStringToNum (s : String) : Option ℚ :=
  let t := ((s.data.dropWhile jsWhitespace).reverse.dropWhile jsWhitespace).reverse
  match t with
  | [] => some 0
  | '+' :: cs => parseUnsignedDec cs
  | '-' :: cs => (parseUnsignedDec cs).map Neg.neg
  | cs => parseUnsignedDec cs

/-- Match a sequence of character predicates against a prefix of the input. -/
def matchSeq : List (Char → Bool) → List Char → Bool
  | [], _ => true
  | _ :: _, [] => false
  | p :: ps, c :: cs => p c && matchSeq ps cs

/-- Predicate for one fixed character. -/
def dchar (d : Char) : Char → Bool := fun c => c = d

/-- Pattern of `n` decimal digits. -/
def digitPat (n : Nat) : List (Char → Bool) := List.replicate n (fun c => c.isDigit)

/-- First alternative of the source's `dateRegex`: `^\d\d\d\d-\d\d-\d\d`. -/
def datePat1 : List (Char → Bool) := digitPat 4 ++ [dchar '-'] ++ digitPat 2 ++ [dchar '-'] ++ digitPat 2

/-- Second alternative of the source's `dateRegex`: `^\d\d/\d\d/\d\d\d\d`. -/
def datePat2 : List (Char → Bool) := digitPat 2 ++ [dchar '/'] ++ digitPat 2 ++ [dchar '/'] ++ digitPat 4

/-- Third alternative of the source's `dateRegex` (not anchored):
`\d\d\d\d-\d\d-\d\dT\d\d:\d\d:\d\d`. -/
def datePat3 : List (Char → Bool) :=
  datePat1 ++ [dchar 'T'] ++ digitPat 2 ++ [dchar ':'] ++ digitPat 2 ++ [dchar ':'] ++ digitPat 2

/-- Does the pattern match starting at some position of the input? -/
def matchSomewhere (ps : List (Char → Bool)) : List Char → Bool
  | [] => matchSeq ps []
  | c :: cs => matchSeq ps (c :: cs) || matchSomewhere ps cs

/-- Model of `dateRegex.test` from `detectFieldType`: the first two
alternatives are anchored at the start of the string, the third may match
anywhere. -/
def dateRegexTest (s : String) : Bool :=
  matchSeq datePat1 s.data || matchSeq datePat2 s.data || matchSomewhere datePat3 s.data

/-- Read exactly `n` decimal digits from the front of the input. -/
def takeDigitsExact (n : Nat) (cs : List Char) : Option (Nat × List Char) :=
  let ds := cs.take n
  if ds.length = n && ds.all Char.isDigit then some (digitsToNat ds, cs.drop n) else none

/-- Time-zone offset tail `HH:mm` of an ISO date-time string. -/
def tzOffset (cs : List Char) : Bool :=
  match takeDigitsExact 2 cs with
  | some (h, ':' :: cs2) =>
    (match takeDigitsExact 2 cs2 with
     | some (m, []) => h ≤ 23 && m ≤ 59
     | _ => false)
  | _ => false

/-- Optional time-zone designator at the end of an ISO date-time string. -/
def parseTz : List Char → Bool
  | [] => true
  | ['Z'] => true
  | '+' :: cs => tzOffset cs
  | '-' :: cs => tzOffset cs
  | _ => false

/-- Optional fractional-seconds part `.d…` of an ISO time. -/
def parseSecondsFrac : List Char → Option (List Char)
  | '.' :: cs =>
    let ds := cs.takeWhile Char.isDigit
    if ds.isEmpty then none else some (cs.dropWhile Char.isDigit)
  | cs => some cs

/-- Time part `HH:mm[:ss[.s…]]` plus optional zone of an ISO date-time. -/
def parseTimePart (cs : List Char) : Bool :=
  match takeDigitsExact 2 cs with
  | some (h, ':' :: cs2) =>
    (match takeDigitsExact 2 cs2 with
     | some (m, cs3) =>
       h ≤ 24 && m ≤ 59 &&
       (match cs3 with
        | ':' :: cs4 =>
          (match takeDigitsExact 2 cs4 with
           | some (sec, cs5) =>
             sec ≤ 59 &&
             (match parseSecondsFrac cs5 with
              | some cs6 => parseTz cs6
              | none => false)
           | none => false)
        | _ => parseTz cs3)
     | none => false)
  | _ => false

/-- Model of the engine-independent core of the JavaScript `Date.parse`
builtin, i.e. the ECMAScript Date Time String Format
`YYYY[-MM[-DD]][THH:mm[:ss[.s…]][Z|±HH:mm]]` with the month/day range
checks (per-month day bounds are not refined).  Implementation-specific
fallback formats (RFC 2822, month-name dates, …) accepted by some engines
are not modelled; no claim below depends on them.  `jsDateParseOk s`
embeds the source's `!isNaN(Date.parse(s))`. -/
def jsDateParseOk (s : String) : Bool :=
  match takeDigitsExact 4 s.data with
  | some (_, rest) =>
    (match rest with
     | [] => true
     | 'T' :: cs => parseTimePart cs
     | '-' :: cs =>
       (match takeDigitsExact 2 cs with
        | some (mo, rest2) =>
          1 ≤ mo && mo ≤ 12 &&
          (match rest2 with
           | [] => true
           | 'T' :: cs2 => parseTimePart cs2
           | '-' :: cs2 =>
             (match takeDigitsExact 2 cs2 with
              | some (d, rest3) =>
                1 ≤ d && d ≤ 31 &&
                (match rest3 with
                 | [] => true
                 | 'T' :: cs3 => parseTimePart cs3
                 | _ => false)
              | none => false)
           | _ => false)
        | none => false)
     | _ => false)
  | none => false

/-- Field types assigned by `detectFieldType`
(`"string" | "number" | "date" | "boolean" | "array" | "object"`). -/
inductive FType where
  | fstring | fnumber | fdate | fboolean | farray | fobject
  deriving DecidableEq, Repr

/-- `detectFieldType` from `DashboardBuilder.tsx`: classifies a list of
sampled values by its first element (`values[0]`; an empty list gives the
JS `undefined`, which falls through every branch to `"string"`, and a
`null` first value has `typeof null === "object"`). -/
def detectFieldType (values : List Json) : FType :=
  match values.head? with
  | none => .fstring
  | some (.arr _) => .farray
  | some (.bool _) => .fboolean
  | some .null => .fobject
  | some (.obj _) => .fobject
  | some (.num _) => .fnumber
  | some (.str s) =>
    if (jsStringToNum s).isSome then .fnumber
    else if dateRegexTest s || jsDateParseOk s then .fdate
    else .fstring

/-- Dotted-path extension used by both `findArrays` and `flattenData`
(the source's `prefix ? prefix + "." + key : key`). -/
def dotJoin (pre k : String) : String := if pre = "" then k else pre ++ "." ++ k

mutual
/-- `findArrays` from `DashboardBuilder.tsx`: records every array reached
by walking object entries from the root (an array found is recorded with
its dotted path, `"root"` for an empty path, and is not walked into). -/
def findArrays : Json → String → List (String × List Json)
  | .arr a, pre => [(if pre = "" then "root" else pre, a)]
  | .obj kvs, pre => findArraysKVs kvs pre
  | _, _ => []
/-- The for-in loop of `findArrays` over the entries of an object. -/
def findArraysKVs : List (String × Json) → String → List (String × List Json)
  | [], _ => []
  | (k, v) :: rest, pre => findArrays v (dotJoin pre k) ++ findArraysKVs rest pre
end

mutual
/-- Specification-side description for the array-discovery claim: the
arrays reachable from a JSON value by following object keys only, each
with the list of keys leading to it.  Compared against `findArrays`. -/
def keyedArrays : Json → List (List String × List Json)
  | .arr a => [([], a)]
  | .obj kvs => keyedArraysKVs kvs
  | _ => []
/-- Entry-wise companion of `keyedArrays`. -/
def keyedArraysKVs : List (String × Json) → List (List String × List Json)
  | [] => []
  | (k, v) :: rest => (keyedArrays v).map (fun pa => (k :: pa.1, pa.2)) ++ keyedArraysKVs rest
end

/-- Occurrence of a value inside a JSON value at any nesting depth. -/
inductive SubJson : Json → Json → Prop where
  | refl (j : Json) : SubJson j j
  | inArr {a b : Json} {xs : List Json} : b ∈ xs → SubJson a b → SubJson a (.arr xs)
  | inObj {a b : Json} {k : String} {kvs : List (String × Json)} :
      (k, b) ∈ kvs → SubJson a b → SubJson a (.obj kvs)

/-- Exact decimal rendering of a rational (JavaScript's shortest-round-trip
double formatting is not modelled; no claim below depends on the rendered
digits, only on the result being a string). -/
def ratToString (q : ℚ) : String :=
  if q.den = 1 then toString q.num else toString q.num ++ "/" ++ toString q.den

/-- JSON string escaping for one character (quote and backslash only;
control-character escapes are not modelled). -/
def escapeChar (c : Char) : String :=
  if c = '"' then "\\\"" else if c = '\\' then "\\\\" else String.singleton c

/-- JSON string escaping. -/
def escapeStr (s : String) : String := String.join (s.data.map escapeChar)

mutual
/-- Model of the `JSON.stringify` builtin, used by `flattenData` on array
values. -/
def jsonStringify : Json → String
  | .null => "null"
  | .bool b => if b then "true" else "false"
  | .num q => ratToString q
  | .str s => "\"" ++ escapeStr s ++ "\""
  | .arr xs => "[" ++ jsonStringifyList xs ++ "]"
  | .obj kvs => "\x7b" ++ jsonStringifyKVs kvs ++ "\x7d"
/-- Comma-separated stringification of array elements. -/
def jsonStringifyList : List Json → String
  | [] => ""
  | [x] => jsonStringify x
  | x :: xs => jsonStringify x ++ "," ++ jsonStringifyList xs
/-- Comma-separated stringification of object entries. -/
def jsonStringifyKVs : List (String × Json) → String
  | [] => ""
  | [(k, v)] => "\"" ++ escapeStr k ++ "\":" ++ jsonStringify v
  | (k, v) :: rest => "\"" ++ escapeStr k ++ "\":" ++ jsonStringify v ++ "," ++ jsonStringifyKVs rest
end

mutual
/-- Model of the JavaScript ToString coercion (template literals and
computed object keys): an array stringifies as its comma-joined elements,
a plain object as "[object Object]". -/
def jsToString : Json → String
  | .null => "null"
  | .bool b => if b then "true" else "false"
  | .num q => ratToString q
  | .str s => s
  | .arr xs => jsToStringJoin xs
  | .obj _ => "[object Object]"
/-- `Array.prototype.join ","`, which renders null elements as empty. -/
def jsToStringJoin : List Json → String
  | [] => ""
  | [.null] => ""
  | [x] => jsToString x
  | .null :: xs => "," ++ jsToStringJoin xs
  | x :: xs => jsToString x ++ "," ++ jsToStringJoin xs
end

/-- ToString coercion with `none` standing for the JS `undefined`. -/
def jsToStringU : Option Json → String
  | none => "undefined"
  | some j => jsToString j

/-- Character-index entries produced when `flattenData`'s for-in loop runs
over a top-level string value. -/
def flattenChars : List Char → Nat → String → List (String × Json)
  | [], _, _ => []
  | c :: rest, i, pre =>
    (dotJoin pre (toString i), .str (String.singleton c)) :: flattenChars rest (i + 1) pre

mutual
/-- `flattenData` from `DashboardBuilder.tsx`: flattens a value to
dotted-key/value pairs; null values are kept, array values are replaced
by their JSON string, plain-object values are recursed into, and other
values are assigned as they are.  A for-in loop drives it, so a top-level
array flattens via its index keys and a top-level string via its
character index keys, while primitive numbers, booleans and null have no
enumerable keys and flatten to the empty object.  Successive assignments
to the same key are modelled by last-entry-wins lookup (`jsLookup`). -/
def flattenData : Json → String → List (String × Json)
  | .obj kvs, pre => flattenKVs kvs pre
  | .arr xs, pre => flattenIdx xs 0 pre
  | .str s, pre => flattenChars s.data 0 pre
  | _, _ => []
/-- The for-in loop of `flattenData` over object entries. -/
def flattenKVs : List (String × Json) → String → List (String × Json)
  | [], _ => []
  | (k, v) :: rest, pre => flattenEntryV (dotJoin pre k) v ++ flattenKVs rest pre
/-- The for-in loop of `flattenData` over a top-level array's elements. -/
def flattenIdx : List Json → Nat → String → List (String × Json)
  | [], _, _ => []
  | v :: rest, i, pre => flattenEntryV (dotJoin pre (toString i)) v ++ flattenIdx rest (i + 1) pre
/-- The body of `flattenData`'s loop for one key/value entry. -/
def flattenEntryV : String → Json → List (String × Json)
  | nk, .null => [(nk, .null)]
  | nk, .arr a => [(nk, .str (jsonStringify (.arr a)))]
  | nk, .obj kvs2 => flattenKVs kvs2 nk
  | nk, v => [(nk, v)]
end

/-- Property lookup on a flattened object: the JS object keeps the last
assignment to each key; `none` plays the role of `undefined`. -/
def jsLookup (kvs : List (String × Json)) (k : String) : Option Json :=
  (kvs.reverse.find? (fun p => p.1 = k)).map (·.2)

/-- A field detected by `analyzeFields`. -/
structure FieldInfo where
  name : String
  type : FType
  sampleValue : Json

/-- The guard `typeof item === "object" && item !== null` used when
collecting keys in `analyzeFields` (arrays pass it, since the typeof an
array is "object"). -/
def isObjLike : Json → Bool
  | .obj _ => true
  | .arr _ => true
  | _ => false

/-- Null test on a JSON value. -/
def Json.isNull : Json → Bool
  | .null => true
  | _ => false

/-- Insertion-order deduplication (the `new Set()` key collection). -/
def insertDedup (ks : List String) : List String :=
  ks.foldl (fun acc k => if k ∈ acc then acc else acc ++ [k]) []

/-- Code-point comparison of character lists. -/
def charListLe : List Char → List Char → Bool
  | [], _ => true
  | _ :: _, [] => false
  | a :: as, b :: bs => if a = b then charListLe as bs else decide (a.toNat < b.toNat)

/-- Code-point string comparison (the model of `localeCompare` ordering). -/
def strLe (a b : String) : Bool := charListLe a.data b.data

/-- Stable insertion of an element coming earlier in the original list
into the already-sorted tail. -/
def insertSorted (le : α → α → Bool) (x : α) : List α → List α
  | [] => [x]
  | y :: ys => if le x y then x :: y :: ys else y :: insertSorted le x ys

/-- Stable insertion sort, modelling `Array.prototype.sort` (which is
required to be stable; the engine's actual algorithm is unspecified). -/
def stableSortBy (le : α → α → Bool) : List α → List α
  | [] => []
  | x :: xs => insertSorted le x (stableSortBy le xs)

/-- The sample values `analyzeFields` collects for one key: the flattened
value of the key in each sampled record, with undefined and null values
dropped. -/
def sampleValuesFor (sampleData : List Json) (key : String) : List Json :=
  ((sampleData.map (fun item => jsLookup (flattenData item "") key)).filterMap id).filter
    (fun v => !v.isNull)

/-- `analyzeFields` from `DashboardBuilder.tsx`: samples the first 5
records, collects the flattened keys of the object-like samples, keeps
each key with at least one non-null sample value, classifies it with
`detectFieldType`, and sorts the result by name (`localeCompare` is
modelled as code-point order; the claims below depend only on membership,
which any sort order preserves). -/
def analyzeFields (data : List Json) : List FieldInfo :=
  let sampleData := data.take 5
  let allKeys := insertDedup (sampleData.flatMap (fun item =>
    if isObjLike item then (flattenData item "").map (·.1) else []))
  let fs := allKeys.filterMap (fun key =>
    let sampleValues := sampleValuesFor sampleData key
    sampleValues.head?.map (fun h =>
      { name := key, type := detectFieldType sampleValues, sampleValue := h }))
  stableSortBy (fun a b => strLe a.name b.name) fs

/-- Chart types (`"bar" | "line" | "pie" | "table"`). -/
inductive CType where
  | bar | line | pie | table
  deriving DecidableEq, Repr

/-- The chart configuration record (`ChartConfig`). -/
structure ChartConfig where
  type : CType
  xAxis : String
  yAxis : String
  groupBy : Option String
  title : String
  deriving DecidableEq, Repr

/-- `suggestChartConfig` from `DashboardBuilder.tsx`. -/
def suggestChartConfig (fields : List FieldInfo) : Option ChartConfig :=
  let stringFields := fields.filter (fun f => f.type = FType.fstring)
  let numberFields := fields.filter (fun f => f.type = FType.fnumber)
  let dateFields := fields.filter (fun f => f.type = FType.fdate)
  if numberFields.isEmpty && stringFields.isEmpty then none
  else
    let yAxis := match numberFields with
      | f :: _ => f.name
      | [] => ""
    let type0 : CType := if !numberFields.isEmpty then .bar else .table
    let xAxis := match dateFields with
      | d :: _ => d.name
      | [] =>
        match stringFields with
        | s :: _ => s.name
        | [] =>
          match numberFields with
          | _ :: f2 :: _ => f2.name
          | f :: _ => f.name
          | [] => ""
    let type1 := if !dateFields.isEmpty && !numberFields.isEmpty then CType.line else type0
    some { type := type1, xAxis := xAxis, yAxis := yAxis, groupBy := none,
           title := if yAxis ≠ "" then yAxis ++ " by " ++ xAxis
                    else "Data Analysis: " ++ xAxis }

/-- A row object built by `processDataForChart`'s map (`none` values are
explicitly-assigned `undefined` properties). -/
abbrev RRow := List (String × Option Json)

/-- Property read on a processed row object: last assignment wins; an
absent property and a property holding `undefined` both read back as
`none`, exactly as `item[k] === undefined` cannot tell them apart. -/
def getVal (r : RRow) (k : String) : Option Json :=
  ((r.reverse.find? (fun p => p.1 = k)).map (·.2)).join

/-- The truthiness test `if (config.groupBy)`: a missing group-by and the
empty-string group-by are both falsy. -/
def ChartConfig.gbVal (c : ChartConfig) : Option String :=
  match c.groupBy with
  | some g => if g = "" then none else some g
  | none => none

/-- The numeric-string coercion applied to the y value
(`if (typeof yValue === "string" && !isNaN(Number(yValue))) yValue = Number(yValue)`). -/
def coerceY : Option Json → Option Json
  | some (.str s) =>
    (match jsStringToNum s with
     | some q => some (.num q)
     | none => some (.str s))
  | v => v

/-- One element of `processDataForChart`'s map: the result object with
its x, coerced y, and optional group-by properties, assigned in order. -/
def procItem (cfg : ChartConfig) (item : Json) : RRow :=
  let fl := flattenData item ""
  let base := [(cfg.xAxis, jsLookup fl cfg.xAxis), (cfg.yAxis, coerceY (jsLookup fl cfg.yAxis))]
  match cfg.gbVal with
  | some g => base ++ [(g, jsLookup fl g)]
  | none => base

/-- The filter of `processDataForChart`: keep rows whose x is defined and
whose y is a number. -/
def keepRow (cfg : ChartConfig) (r : RRow) : Bool :=
  (getVal r cfg.xAxis).isSome &&
  (match getVal r cfg.yAxis with
   | some (.num _) => true
   | _ => false)

/-- The intermediate `processed` list of `processDataForChart`. -/
def processedRows (data : List Json) (cfg : ChartConfig) : List RRow :=
  (data.map (procItem cfg)).filter (keepRow cfg)

/-- The numeric y value of a retained row (the filter guarantees the
fallback 0 is never used). -/
def yNum (cfg : ChartConfig) (r : RRow) : ℚ :=
  match getVal r cfg.yAxis with
  | some (.num q) => q
  | _ => 0

/-- Update in place the value stored at a key of the accumulator object
(`acc[key] = …` on a key the object already has). -/
def updAssoc (k : String) (u : β → β) : List (String × β) → List (String × β)
  | [] => []
  | p :: ps => if p.1 = k then (p.1, u p.2) :: ps else p :: updAssoc k u ps

/-- One step of a JS `reduce` grouping into a string-keyed object: a new
key is appended in insertion order, an existing key is updated. -/
def stepByKey (keyf : α → String) (mk : α → β) (upd : β → α → β)
    (acc : List (String × β)) (r : α) : List (String × β) :=
  let k := keyf r
  if acc.any (fun p => p.1 = k) then updAssoc k (fun b => upd b r) acc
  else acc ++ [(k, upd (mk r) r)]

/-- A JS `reduce` over rows grouping into a string-keyed object, started
from the empty object.  `Object.values` later reads the values back in
key insertion order (every key used below contains a non-digit, so no
key is an array index that the engine would reorder). -/
def reduceByKey (keyf : α → String) (mk : α → β) (upd : β → α → β)
    (rows : List α) : List (String × β) :=
  rows.foldl (stepByKey keyf mk upd) []

/-- A value stored in a property of a grouped result row: a JSON value,
the JS `undefined` (a group-by value that was missing is assigned as
such), or the JS `NaN` (which `+=` produces on an undefined operand and
which plain JSON cannot carry). -/
inductive PropVal where
  | js : Json → PropVal
  | undefined : PropVal
  | nan : PropVal

/-- The property value assigned from an optional flattened value. -/
def propOfOpt : Option Json → PropVal
  | none => .undefined
  | some j => .js j

/-- A grouped output row of `processDataForChart`: a JS object built with
computed property names, so colliding configured names (e.g. a y axis
literally called "count") share one property. -/
abbrev GObj := List (String × PropVal)

/-- JS property assignment `r[k] = v`: updates the property in place when
present, otherwise appends it. -/
def setProp (r : List (String × β)) (k : String) (v : β) : List (String × β) :=
  if r.any (fun p => p.1 = k) then updAssoc k (fun _ => v) r else r ++ [(k, v)]

/-- JS property read `r[k]`: undefined when the property is absent. -/
def readProp (r : GObj) (k : String) : PropVal :=
  ((r.find? (fun p => p.1 = k)).map (fun p => p.2)).getD .undefined

/-- Model of the JavaScript `+` in `row[k] += n` for a finite number `n`:
a string left operand concatenates (arrays and objects concatenate via
their ToPrimitive strings), null and booleans coerce to numbers,
undefined gives NaN, and NaN propagates. -/
def jsPlusNum (v : PropVal) (n : ℚ) : PropVal :=
  match v with
  | .js (.num q) => .js (.num (q + n))
  | .js (.str s) => .js (.str (s ++ jsToString (.num n)))
  | .js .null => .js (.num n)
  | .js (.bool b) => .js (.num ((if b then 1 else 0) + n))
  | .js (.arr xs) => .js (.str (jsToString (.arr xs) ++ jsToString (.num n)))
  | .js (.obj kvs) => .js (.str (jsToString (.obj kvs) ++ jsToString (.num n)))
  | .undefined => .nan
  | .nan => .nan

/-- A pie output row of `processDataForChart` (`name` keeps the raw x
value, as in the source; its literal `name`/`value` property names cannot
collide with anything). -/
structure PieRow where
  name : Option Json
  value : ℚ

/-- The template-literal grouping key `xValue + "_" + groupValue`. -/
def rowKey (cfg : ChartConfig) (g : String) (r : RRow) : String :=
  jsToStringU (getVal r cfg.xAxis) ++ "_" ++ jsToStringU (getVal r g)

/-- The result object created for a new grouping key:
`· [xAxis]: x value, [yAxis]: 0, count: 0 ·` followed by the group-by
property, assigned in source order with computed property names (a
colliding name overwrites the earlier value in place). -/
def mkGroupRow (cfg : ChartConfig) (g : String) (r : RRow) : GObj :=
  let o1 := setProp [] cfg.xAxis (propOfOpt (getVal r cfg.xAxis))
  let o2 := setProp o1 cfg.yAxis (.js (.num 0))
  let o3 := setProp o2 "count" (.js (.num 0))
  setProp o3 g (propOfOpt (getVal r g))

/-- The two in-place updates `acc[key][yAxis] += item[yAxis]` and
`acc[key].count += 1` (the y value of a retained row is a number). -/
def updGroupRow (cfg : ChartConfig) (b : GObj) (r : RRow) : GObj :=
  let b1 := setProp b cfg.yAxis (jsPlusNum (readProp b cfg.yAxis) (yNum cfg r))
  setProp b1 "count" (jsPlusNum (readProp b1 "count") 1)

/-- The group-by aggregation object of `processDataForChart`. -/
def groupedAssoc (cfg : ChartConfig) (g : String) (rows : List RRow) : List (String × GObj) :=
  reduceByKey (rowKey cfg g) (mkGroupRow cfg g) (updGroupRow cfg) rows

/-- The pie aggregation object of `processDataForChart` (keyed by the x
value, which the engine coerces to a string when used as an object key). -/
def pieAssoc (cfg : ChartConfig) (rows : List RRow) : List (String × PieRow) :=
  reduceByKey (fun r => jsToStringU (getVal r cfg.xAxis))
    (fun r => { name := getVal r cfg.xAxis, value := 0 })
    (fun b r => { b with value := b.value + yNum cfg r })
    rows

/-- The three possible row shapes returned by `processDataForChart`. -/
inductive ChartOut where
  | grouped : List GObj → ChartOut
  | pie : List PieRow → ChartOut
  | plain : List RRow → ChartOut

/-- `processDataForChart` from `DashboardBuilder.tsx`: maps and filters
the records into `processedRows`; a truthy group-by then aggregates by
the `x_group` key and returns (the group-by branch returns before the pie
branch is ever examined); otherwise a pie chart aggregates by the x key;
otherwise the processed rows are returned as they are. -/
def processDataForChart (data : List Json) (cfg : ChartConfig) : ChartOut :=
  let processed := processedRows data cfg
  match cfg.gbVal with
  | some g => .grouped ((groupedAssoc cfg g processed).map (·.2))
  | none =>
    if cfg.type = CType.pie then .pie ((pieAssoc cfg processed).map (·.2))
    else .plain processed

/-- HTTP methods accepted by the apiHistory mutations. -/
inductive HttpMethod where
  | GET | POST
  deriving DecidableEq, Repr

/-- A document of the `apiHistory` table. -/
structure ApiHistoryRecord where
  userId : String
  name : String
  url : String
  method : HttpMethod
  headers : List (String × String)
  body : Option String
  createdAt : Nat
  deriving DecidableEq, Repr

/-- The validated arguments of the `saveApiRequest` mutation. -/
structure SaveArgs where
  name : String
  url : String
  method : HttpMethod
  headers : List (String × String)
  body : Option String
  deriving DecidableEq, Repr

/-- `saveApiRequest` from the apiHistory Convex module: `auth` is the
result of `getAuthUserId` (an external auth builtin, modelled as an
input), `db` the current `apiHistory` table, `now` the `Date.now()`
timestamp.  Without an authenticated user it throws "Unauthorized" and
touches nothing; otherwise it inserts one document carrying that user id
and returns its id (modelled as the document's index). -/
def saveApiRequest (auth : Option String) (db : List ApiHistoryRecord)
    (args : SaveArgs) (now : Nat) : Except String (List ApiHistoryRecord × Nat) :=
  match auth with
  | none => .error "Unauthorized"
  | some userId =>
    .ok (db ++ [{ userId := userId, name := args.name, url := args.url,
                  method := args.method, headers := args.headers,
                  body := args.body, createdAt := now }], db.length)


/-! General list lemmas used below. -/

theorem any_eq_not_filter_isEmpty (l : List α) (p : α → Bool) :
    l.any p = !(l.filter p).isEmpty := by
  induction l with
  | nil => rfl
  | cons x xs ih =>
    by_cases h : p x = true <;> simp [List.filter_cons, List.any_cons, h, ih]

theorem filter_head?_eq_find? (l : List α) (p : α → Bool) :
    (l.filter p).head? = l.find? p := by
  induction l with
  | nil => rfl
  | cons x xs ih =>
    by_cases h : p x = true <;> simp [List.filter_cons, List.find?_cons, h, ih]

/-! Claim C8: saving history requires authentication. -/

/-- C8: `saveApiRequest` inserts a history record only on behalf of an
authenticated user: with no authenticated user id it throws
"Unauthorized" (the mutation aborts, so nothing is inserted), and with a
user id it inserts exactly one record carrying that `userId`. -/
theorem C8_save_requires_auth (db : List ApiHistoryRecord) (args : SaveArgs) (now : Nat) :
    saveApiRequest none db args now = .error "Unauthorized" ∧
    ∀ uid : String, ∃ rec : ApiHistoryRecord,
      saveApiRequest (some uid) db args now = .ok (db ++ [rec], db.length) ∧
      rec.userId = uid :=
  ⟨rfl, fun _ => ⟨_, rfl, rfl⟩⟩

/-! Claim C1: the suggested default chart type. -/

/-- C1 (amended): whenever `suggestChartConfig` returns a configuration,
its chart type is "line" when a date field and a number field both exist,
otherwise "bar" when a number field exists, and "table" otherwise.  (A
date field alone does not force "line": without a number field the type
stays "table".) -/
theorem C1_default_chart_type (fields : List FieldInfo) (cfg : ChartConfig)
    (h : suggestChartConfig fields = some cfg) :
    cfg.type =
      (if fields.any (fun f => f.type = FType.fdate) &&
          fields.any (fun f => f.type = FType.fnumber) then CType.line
       else if fields.any (fun f => f.type = FType.fnumber) then CType.bar
       else CType.table) := by
  simp only [suggestChartConfig] at h
  by_cases hd : (fields.filter (fun f => f.type = FType.fdate)).isEmpty = true <;>
    by_cases hn : (fields.filter (fun f => f.type = FType.fnumber)).isEmpty = true <;>
      simp only [any_eq_not_filter_isEmpty, hd, hn] <;>
        simp only [hd, hn, Bool.not_true, Bool.not_false, Bool.false_and,
          Bool.true_and, Bool.and_false, Bool.and_true, if_true, if_false] at h ⊢ <;>
        (revert h; split <;> intro h <;> (try cases h) <;> simp_all)

/-- C1 counterexample: with one date field and one string field (no
number field), a date field exists but the suggested type is "table",
not "line" as the claim states. -/
theorem C1_counterexample :
    ([⟨"d", FType.fdate, Json.null⟩, ⟨"s", FType.fstring, Json.null⟩] : List FieldInfo).any
        (fun f => f.type = FType.fdate) = true ∧
    (suggestChartConfig [⟨"d", FType.fdate, Json.null⟩, ⟨"s", FType.fstring, Json.null⟩]).map
        ChartConfig.type = some CType.table ∧
    CType.table ≠ CType.line :=
  ⟨rfl, rfl, by decide⟩

/-- C1 witness: with a date and a number field present, the theorem
applies and the suggested type evaluates to "line". -/
theorem C1_witness :
    ({ type := CType.line, xAxis := "d", yAxis := "n", groupBy := none,
       title := "n by d" } : ChartConfig).type =
      (if ([⟨"d", FType.fdate, Json.null⟩, ⟨"n", FType.fnumber, Json.null⟩] : List FieldInfo).any
            (fun f => f.type = FType.fdate) &&
          ([⟨"d", FType.fdate, Json.null⟩, ⟨"n", FType.fnumber, Json.null⟩] : List FieldInfo).any
            (fun f => f.type = FType.fnumber) then CType.line
       else if ([⟨"d", FType.fdate, Json.null⟩, ⟨"n", FType.fnumber, Json.null⟩] : List FieldInfo).any
            (fun f => f.type = FType.fnumber) then CType.bar
       else CType.table) :=
  C1_default_chart_type
    [⟨"d", FType.fdate, Json.null⟩, ⟨"n", FType.fnumber, Json.null⟩]
    { type := CType.line, xAxis := "d", yAxis := "n", groupBy := none, title := "n by d" }
    rfl

/-! Claim C7: the suggested default axes. -/

/-- C7 (amended): whenever `suggestChartConfig` returns a configuration,
its x axis is the first date-typed field's name when a date field exists,
and its y axis is the first number-typed field's name when a number field
exists.  (When neither a number nor a string field exists, no
configuration is returned at all, even if a date field exists.) -/
theorem C7_axis_defaults (fields : List FieldInfo) (cfg : ChartConfig)
    (h : suggestChartConfig fields = some cfg) :
    (∀ f, fields.find? (fun x => x.type = FType.fdate) = some f → cfg.xAxis = f.name) ∧
    (∀ f, fields.find? (fun x => x.type = FType.fnumber) = some f → cfg.yAxis = f.name) := by
  constructor
  · intro f hf
    have hh : (fields.filter (fun x => x.type = FType.fdate)).head? = some f := by
      rw [filter_head?_eq_find?]; exact hf
    cases hfd : fields.filter (fun x => x.type = FType.fdate) with
    | nil => rw [hfd] at hh; cases hh
    | cons a t =>
      rw [hfd] at hh
      obtain rfl : a = f := by simpa using hh
      simp only [suggestChartConfig, hfd] at h
      split at h
      · cases h
      · obtain rfl := Option.some.inj h
        rfl
  · intro f hf
    have hh : (fields.filter (fun x => x.type = FType.fnumber)).head? = some f := by
      rw [filter_head?_eq_find?]; exact hf
    cases hfn : fields.filter (fun x => x.type = FType.fnumber) with
    | nil => rw [hfn] at hh; cases hh
    | cons a t =>
      rw [hfn] at hh
      obtain rfl : a = f := by simpa using hh
      simp only [suggestChartConfig, hfn] at h
      split at h
      · cases h
      · obtain rfl := Option.some.inj h
        rfl

/-- C7 counterexample: with a date field but neither a number nor a
string field, `suggestChartConfig` returns no configuration at all, so no
x axis is picked, contrary to the claim. -/
theorem C7_counterexample :
    ([⟨"d", FType.fdate, Json.null⟩] : List FieldInfo).any
        (fun f => f.type = FType.fdate) = true ∧
    suggestChartConfig [⟨"d", FType.fdate, Json.null⟩] = none :=
  ⟨rfl, rfl⟩

/-- C7 witness: with a date and a number field, the suggested x axis is
the date field and the y axis the number field. -/
theorem C7_witness :
    ({ type := CType.line, xAxis := "d", yAxis := "n", groupBy := none,
       title := "n by d" } : ChartConfig).xAxis =
      (⟨"d", FType.fdate, Json.null⟩ : FieldInfo).name ∧
    ({ type := CType.line, xAxis := "d", yAxis := "n", groupBy := none,
       title := "n by d" } : ChartConfig).yAxis =
      (⟨"n", FType.fnumber, Json.null⟩ : FieldInfo).name :=
  ⟨(C7_axis_defaults [⟨"d", FType.fdate, Json.null⟩, ⟨"n", FType.fnumber, Json.null⟩]
      { type := CType.line, xAxis := "d", yAxis := "n", groupBy := none, title := "n by d" }
      rfl).1 ⟨"d", FType.fdate, Json.null⟩ rfl,
   (C7_axis_defaults [⟨"d", FType.fdate, Json.null⟩, ⟨"n", FType.fnumber, Json.null⟩]
      { type := CType.line, xAxis := "d", yAxis := "n", groupBy := none, title := "n by d" }
      rfl).2 ⟨"n", FType.fnumber, Json.null⟩ rfl⟩

/-! Claim C3: classification of string-valued fields. -/

/-- C3 (amended): when the first sample value is a string, the field is
classified "number" exactly when the string coerces to a number; failing
that, it is classified "date" exactly when the string matches the date
regex or is accepted by `Date.parse` (regex matching alone is sufficient
but not necessary); and "string" otherwise. -/
theorem C3_string_classification (values : List Json) (s : String)
    (h : values.head? = some (Json.str s)) :
    (detectFieldType values = FType.fnumber ↔ (jsStringToNum s).isSome = true) ∧
    ((jsStringToNum s).isSome = false →
      (detectFieldType values = FType.fdate ↔ (dateRegexTest s || jsDateParseOk s) = true)) ∧
    ((jsStringToNum s).isSome = false → (dateRegexTest s || jsDateParseOk s) = false →
      detectFieldType values = FType.fstring) := by
  unfold detectFieldType
  rw [h]
  by_cases hn : (jsStringToNum s).isSome = true
  · simp [hn]
  · simp only [Bool.not_eq_true] at hn
    by_cases hdr : (dateRegexTest s || jsDateParseOk s) = true
    · simp [hn, hdr]
    · simp only [Bool.not_eq_true] at hdr
      simp [hn, hdr]

/-- C3 counterexample: "2020-05" does not coerce to a number and does not
match the date regex, yet `Date.parse` accepts it (an ISO year-month
string), so the field is classified "date" where the claim requires
"string". -/
theorem C3_counterexample :
    detectFieldType [Json.str "2020-05"] = FType.fdate ∧
    (jsStringToNum "2020-05").isSome = false ∧
    dateRegexTest "2020-05" = false ∧
    FType.fdate ≠ FType.fstring :=
  ⟨rfl, rfl, rfl, by decide⟩

/-- C3 witness: the classification trichotomy evaluated at the concrete
string "n/a". -/
theorem C3_witness :
    (detectFieldType [Json.str "n/a"] = FType.fnumber ↔ (jsStringToNum "n/a").isSome = true) ∧
    ((jsStringToNum "n/a").isSome = false →
      (detectFieldType [Json.str "n/a"] = FType.fdate ↔
        (dateRegexTest "n/a" || jsDateParseOk "n/a") = true)) ∧
    ((jsStringToNum "n/a").isSome = false → (dateRegexTest "n/a" || jsDateParseOk "n/a") = false →
      detectFieldType [Json.str "n/a"] = FType.fstring) :=
  C3_string_classification [Json.str "n/a"] "n/a" rfl

/-! Claim C2: array discovery. -/

mutual
/-- `findArrays` returns exactly the arrays reachable through object
entries, with their key paths joined onto the running dotted path
("root" when that path is empty). -/
theorem findArrays_eq_keyed : ∀ (j : Json) (pre : String),
    findArrays j pre = (keyedArrays j).map (fun pa =>
      (if pa.1.foldl dotJoin pre = "" then "root" else pa.1.foldl dotJoin pre, pa.2))
  | .null, pre => by simp [findArrays, keyedArrays]
  | .bool b, pre => by simp [findArrays, keyedArrays]
  | .num q, pre => by simp [findArrays, keyedArrays]
  | .str s, pre => by simp [findArrays, keyedArrays]
  | .arr a, pre => by simp [findArrays, keyedArrays]
  | .obj kvs, pre => by
      simp only [findArrays, keyedArrays]
      exact findArraysKVs_eq_keyed kvs pre
/-- Entry-wise companion of `findArrays_eq_keyed`. -/
theorem findArraysKVs_eq_keyed : ∀ (kvs : List (String × Json)) (pre : String),
    findArraysKVs kvs pre = (keyedArraysKVs kvs).map (fun pa =>
      (if pa.1.foldl dotJoin pre = "" then "root" else pa.1.foldl dotJoin pre, pa.2))
  | [], _ => rfl
  | (k, v) :: rest, pre => by
      simp only [findArraysKVs, keyedArraysKVs, List.map_append, List.map_map]
      congr 1
      · rw [findArrays_eq_keyed v (dotJoin pre k)]
        apply List.map_congr_left
        intro pa _
        simp [Function.comp, List.foldl_cons]
      · exact findArraysKVs_eq_keyed rest pre
end

/-- C2 (amended): `findArrays` returns exactly the arrays reachable from
the root by following object keys only, each keyed by the dotted join of
those keys ("root" for the root itself); arrays nested inside other
arrays are not walked into and are not returned. -/
theorem C2_arrays_by_object_paths (j : Json) :
    findArrays j "" = (keyedArrays j).map (fun pa =>
      (if pa.1.foldl dotJoin "" = "" then "root" else pa.1.foldl dotJoin "", pa.2)) :=
  findArrays_eq_keyed j ""

/-- C2 counterexample: in the value `obj a = [[1]]` the inner array `[1]`
occurs (at nesting depth 2), yet `findArrays` returns only the outer
array under the path "a" — the inner array is not among the candidates,
contrary to "every array occurring at any nesting depth is returned". -/
theorem C2_counterexample :
    SubJson (Json.arr [Json.num 1]) (Json.obj [("a", Json.arr [Json.arr [Json.num 1]])]) ∧
    findArrays (Json.obj [("a", Json.arr [Json.arr [Json.num 1]])]) ""
      = [("a", [Json.arr [Json.num 1]])] ∧
    [Json.arr [Json.num 1]] ≠ [Json.num 1] :=
  ⟨@SubJson.inObj (Json.arr [Json.num 1]) (Json.arr [Json.arr [Json.num 1]]) "a"
      [("a", Json.arr [Json.arr [Json.num 1]])] (by simp)
      (@SubJson.inArr (Json.arr [Json.num 1]) (Json.arr [Json.num 1]) [Json.arr [Json.num 1]]
        (by simp) (SubJson.refl _)),
   rfl, by simp⟩

/-! Claims C6 and C9: field analysis sampling and the absence of
array-typed fields. -/

/-- Values that may appear as flattened leaves (never arrays or objects). -/
def Json.isLeafVal : Json → Bool
  | .arr _ => false
  | .obj _ => false
  | _ => true

/-- Character-index flattening produces only string leaves. -/
theorem flattenChars_leaf : ∀ (cs : List Char) (i : Nat) (pre k : String) (v : Json),
    (k, v) ∈ flattenChars cs i pre → v.isLeafVal = true
  | [], _, _, _, _, h => nomatch h
  | c :: rest, i, pre, k, v, h => by
      simp only [flattenChars, List.mem_cons] at h
      rcases h with h | h
      · cases h; rfl
      · exact flattenChars_leaf rest (i + 1) pre k v h

mutual
/-- Every value in a flattened object is a leaf: arrays were stringified
and plain objects recursed into. -/
theorem flattenData_leaf : ∀ (j : Json) (pre k : String) (v : Json),
    (k, v) ∈ flattenData j pre → v.isLeafVal = true
  | .obj kvs, pre, k, v, h => flattenKVs_leaf kvs pre k v h
  | .arr xs, pre, k, v, h => flattenIdx_leaf xs 0 pre k v h
  | .str s, pre, k, v, h => flattenChars_leaf s.data 0 pre k v h
  | .null, _, _, _, h => nomatch h
  | .bool _, _, _, _, h => nomatch h
  | .num _, _, _, _, h => nomatch h
/-- Companion of `flattenData_leaf` for object entries. -/
theorem flattenKVs_leaf : ∀ (kvs : List (String × Json)) (pre k : String) (v : Json),
    (k, v) ∈ flattenKVs kvs pre → v.isLeafVal = true
  | [], _, _, _, h => nomatch h
  | (k0, v0) :: rest, pre, k, v, h => by
      simp only [flattenKVs, List.mem_append] at h
      rcases h with h | h
      · exact flattenEntryV_leaf (dotJoin pre k0) v0 k v h
      · exact flattenKVs_leaf rest pre k v h
/-- Companion of `flattenData_leaf` for top-level array elements. -/
theorem flattenIdx_leaf : ∀ (xs : List Json) (i : Nat) (pre k : String) (v : Json),
    (k, v) ∈ flattenIdx xs i pre → v.isLeafVal = true
  | [], _, _, _, _, h => nomatch h
  | x :: rest, i, pre, k, v, h => by
      simp only [flattenIdx, List.mem_append] at h
      rcases h with h | h
      · exact flattenEntryV_leaf (dotJoin pre (toString i)) x k v h
      · exact flattenIdx_leaf rest (i + 1) pre k v h
/-- Companion of `flattenData_leaf` for one entry. -/
theorem flattenEntryV_leaf : ∀ (nk : String) (w : Json) (k : String) (v : Json),
    (k, v) ∈ flattenEntryV nk w → v.isLeafVal = true
  | nk, .null, k, v, h => by
      simp only [flattenEntryV, List.mem_singleton] at h; cases h; rfl
  | nk, .arr a, k, v, h => by
      simp only [flattenEntryV, List.mem_singleton] at h; cases h; rfl
  | nk, .obj kvs2, k, v, h => flattenKVs_leaf kvs2 nk k v h
  | nk, .bool b, k, v, h => by
      simp only [flattenEntryV, List.mem_singleton] at h; cases h; rfl
  | nk, .num q, k, v, h => by
      simp only [flattenEntryV, List.mem_singleton] at h; cases h; rfl
  | nk, .str s, k, v, h => by
      simp only [flattenEntryV, List.mem_singleton] at h; cases h; rfl
end

/-- A successful property lookup comes from an entry of the list. -/
theorem jsLookup_some_mem (kvs : List (String × Json)) (k : String) (v : Json)
    (h : jsLookup kvs k = some v) : (k, v) ∈ kvs := by
  unfold jsLookup at h
  cases hf : kvs.reverse.find? (fun p => p.1 = k) with
  | none => rw [hf] at h; cases h
  | some p =>
    rw [hf] at h
    obtain rfl : p.2 = v := by simpa using h
    have hp : p.1 = k := by simpa using List.find?_some hf
    have hmem : p ∈ kvs := by
      have := List.mem_of_find?_eq_some hf
      simpa using this
    obtain ⟨p1, p2⟩ := p
    cases hp
    exact hmem

theorem mem_insertSorted (le : α → α → Bool) (x a : α) (l : List α) :
    a ∈ insertSorted le x l ↔ a = x ∨ a ∈ l := by
  induction l with
  | nil => simp [insertSorted]
  | cons y ys ih =>
    unfold insertSorted
    by_cases hle : le x y = true
    · simp [hle, List.mem_cons]
    · simp [hle, List.mem_cons, ih]
      tauto

theorem mem_stableSortBy (le : α → α → Bool) (a : α) (l : List α) :
    a ∈ stableSortBy le l ↔ a ∈ l := by
  induction l with
  | nil => exact Iff.rfl
  | cons x xs ih => simp [stableSortBy, mem_insertSorted, ih]

/-- Classification of a non-empty sample list headed by a leaf value is
never "array". -/
theorem detectFieldType_cons_ne_farray (v : Json) (t : List Json) (hv : v.isLeafVal = true) :
    detectFieldType (v :: t) ≠ FType.farray := by
  cases v with
  | arr xs => cases hv
  | obj kvs => cases hv
  | str s =>
    unfold detectFieldType
    simp only [List.head?_cons]
    split_ifs <;> simp
  | null => simp [detectFieldType]
  | bool b => simp [detectFieldType]
  | num q => simp [detectFieldType]

/-- A detected field records the non-empty sample-value list for its key
and is classified from it. -/
theorem analyzeFields_mem_unpack (data : List Json) (f : FieldInfo)
    (hf : f ∈ analyzeFields data) :
    ∃ t : List Json, sampleValuesFor (data.take 5) f.name = f.sampleValue :: t ∧
      f.type = detectFieldType (f.sampleValue :: t) := by
  unfold analyzeFields at hf
  rw [mem_stableSortBy] at hf
  obtain ⟨key, hkey, hsome⟩ := List.mem_filterMap.mp hf
  dsimp only at hsome
  cases hsv : (sampleValuesFor (data.take 5) key).head? with
  | none => rw [hsv] at hsome; cases hsome
  | some h0 =>
    rw [hsv] at hsome
    obtain rfl := Option.some.inj hsome
    cases hl : sampleValuesFor (data.take 5) key with
    | nil => rw [hl] at hsv; cases hsv
    | cons a t =>
      rw [hl] at hsv
      obtain rfl : a = h0 := by simpa using hsv
      refine ⟨t, ?_, ?_⟩
      · simp [hl]
      · simp [hl]

/-- C9: `analyzeFields` never assigns the type "array" to any field,
because `flattenData` replaces nested arrays by their JSON strings and
recurses only into plain objects, so no sampled value is an array. -/
theorem C9_no_array_fields (data : List Json) (f : FieldInfo)
    (hf : f ∈ analyzeFields data) : f.type ≠ FType.farray := by
  obtain ⟨t, hsv, htype⟩ := analyzeFields_mem_unpack data f hf
  have hmem0 : f.sampleValue ∈ sampleValuesFor (data.take 5) f.name := by
    rw [hsv]; exact List.mem_cons_self _ _
  have hleaf : f.sampleValue.isLeafVal = true := by
    unfold sampleValuesFor at hmem0
    have hmem1 := List.mem_of_mem_filter hmem0
    obtain ⟨a, ha, haeq⟩ := List.mem_filterMap.mp hmem1
    obtain rfl : a = some f.sampleValue := by simpa using haeq
    obtain ⟨item, hitem, hlk⟩ := List.mem_map.mp ha
    exact flattenData_leaf item "" f.name f.sampleValue (jsLookup_some_mem _ _ _ hlk)
  rw [htype]
  exact detectFieldType_cons_ne_farray f.sampleValue t hleaf

/-- C9 witness: an array-valued field is classified "string" (its JSON
text), not "array". -/
theorem C9_witness :
    (⟨"a", FType.fstring, Json.str "[1]"⟩ : FieldInfo).type ≠ FType.farray :=
  C9_no_array_fields [Json.obj [("a", Json.arr [Json.num 1])]]
    ⟨"a", FType.fstring, Json.str "[1]"⟩
    (by rw [show analyzeFields [Json.obj [("a", Json.arr [Json.num 1])]]
          = [⟨"a", FType.fstring, Json.str "[1]"⟩] from rfl]
        exact List.mem_singleton.mpr rfl)

/-- C6: `analyzeFields` inspects at most the first 5 records, and the
type it assigns to a key is `detectFieldType` of a list headed by the
first non-null, non-undefined sampled value for that key — so the type is
determined solely by that first value. -/
theorem C6_first_five_first_sample (data : List Json) :
    analyzeFields data = analyzeFields (data.take 5) ∧
    ∀ f ∈ analyzeFields data,
      (sampleValuesFor (data.take 5) f.name).head? = some f.sampleValue ∧
      f.type = detectFieldType [f.sampleValue] := by
  constructor
  · unfold analyzeFields
    rw [List.take_take]
    simp
  · intro f hf
    obtain ⟨t, hsv, htype⟩ := analyzeFields_mem_unpack data f hf
    refine ⟨by simp [hsv], ?_⟩
    rw [htype]
    rfl

/-- C6 witness: the boolean field of a one-record dataset is classified
from its first (only) sampled value. -/
theorem C6_witness :
    (sampleValuesFor ([Json.obj [("b", Json.bool true)]].take 5) "b").head?
        = some (Json.bool true) ∧
    FType.fboolean = detectFieldType [Json.bool true] :=
  (C6_first_five_first_sample [Json.obj [("b", Json.bool true)]]).2
    ⟨"b", FType.fboolean, Json.bool true⟩
    (by rw [show analyzeFields [Json.obj [("b", Json.bool true)]]
          = [⟨"b", FType.fboolean, Json.bool true⟩] from rfl]
        exact List.mem_singleton.mpr rfl)

/-- First-match lookup in a grouping accumulator object (its keys are
kept unique by `stepByKey`). -/
def lookupKey (acc : List (String × β)) (k : String) : Option β :=
  (acc.find? (fun p => p.1 = k)).map (fun p => p.2)

theorem any_key_eq_lookupKey_isSome (acc : List (String × β)) (k : String) :
    acc.any (fun p => p.1 = k) = (lookupKey acc k).isSome := by
  induction acc with
  | nil => rfl
  | cons p ps ih =>
    by_cases hp : p.1 = k
    · simp [lookupKey, List.find?_cons, List.any_cons, hp]
    · simp only [lookupKey, List.find?_cons, List.any_cons, hp] at ih ⊢
      simp [hp, ih]

theorem lookupKey_updAssoc_ne (acc : List (String × β)) (k0 k : String) (u : β → β)
    (hne : k0 ≠ k) :
    lookupKey (updAssoc k0 u acc) k = lookupKey acc k := by
  induction acc with
  | nil => rfl
  | cons p ps ih =>
    unfold updAssoc
    by_cases hp0 : p.1 = k0
    · have hp : ¬ p.1 = k := by rw [hp0]; exact hne
      simp [lookupKey, List.find?_cons, hp0, hp, hne]
    · by_cases hp : p.1 = k
      · simp [lookupKey, List.find?_cons, hp0, hp, Ne.symm hne]
      · simp only [lookupKey, List.find?_cons, hp0, hp, if_false]
        simp only [hp0, if_false] at *
        simpa [lookupKey, List.find?_cons, hp] using ih

theorem lookupKey_updAssoc_self (acc : List (String × β)) (k : String) (u : β → β) (b : β)
    (hb : lookupKey acc k = some b) :
    lookupKey (updAssoc k u acc) k = some (u b) := by
  induction acc with
  | nil => cases hb
  | cons p ps ih =>
    unfold updAssoc
    by_cases hp : p.1 = k
    · simp only [lookupKey, List.find?_cons, hp] at hb ⊢
      simp at hb
      simp [hp, hb]
    · simp only [lookupKey, List.find?_cons, hp, if_false] at hb ⊢
      simp only [hp, if_false] at *
      simpa [lookupKey, List.find?_cons, hp] using ih (by simpa [lookupKey] using hb)

theorem updAssoc_keys (acc : List (String × β)) (k : String) (u : β → β) :
    (updAssoc k u acc).map (fun p => p.1) = acc.map (fun p => p.1) := by
  induction acc with
  | nil => rfl
  | cons p ps ih =>
    unfold updAssoc
    by_cases hp : p.1 = k <;> simp [hp, ih]

theorem lookupKey_append_single (acc : List (String × β)) (k0 k : String) (b : β) :
    lookupKey (acc ++ [(k0, b)]) k =
      (match lookupKey acc k with
       | some c => some c
       | none => if k0 = k then some b else none) := by
  induction acc with
  | nil => by_cases h : k0 = k <;> simp [lookupKey, List.find?_cons, h]
  | cons p ps ih =>
    by_cases hp : p.1 = k
    · simp [lookupKey, List.find?_cons, hp]
    · simp only [List.cons_append, lookupKey, List.find?_cons, hp, if_false]
      simpa [lookupKey, List.find?_cons, hp] using ih

theorem lookupKey_stepByKey_ne (keyf : α → String) (mk : α → β) (upd : β → α → β)
    (acc : List (String × β)) (r : α) (k : String) (hne : keyf r ≠ k) :
    lookupKey (stepByKey keyf mk upd acc r) k = lookupKey acc k := by
  unfold stepByKey
  by_cases hany : acc.any (fun p => p.1 = keyf r) = true
  · rw [if_pos hany]
    exact lookupKey_updAssoc_ne acc (keyf r) k _ hne
  · rw [if_neg hany, lookupKey_append_single]
    cases h : lookupKey acc k <;> simp [h, hne]

theorem lookupKey_stepByKey_eq_some (keyf : α → String) (mk : α → β) (upd : β → α → β)
    (acc : List (String × β)) (r : α) (k : String) (b : β)
    (hk : keyf r = k) (hb : lookupKey acc k = some b) :
    lookupKey (stepByKey keyf mk upd acc r) k = some (upd b r) := by
  unfold stepByKey
  have hany : acc.any (fun p => p.1 = keyf r) = true := by
    rw [hk, any_key_eq_lookupKey_isSome, hb]; rfl
  rw [if_pos hany, hk]
  exact lookupKey_updAssoc_self acc k _ b hb

theorem lookupKey_stepByKey_eq_none (keyf : α → String) (mk : α → β) (upd : β → α → β)
    (acc : List (String × β)) (r : α) (k : String)
    (hk : keyf r = k) (hb : lookupKey acc k = none) :
    lookupKey (stepByKey keyf mk upd acc r) k = some (upd (mk r) r) := by
  unfold stepByKey
  have hany : ¬ acc.any (fun p => p.1 = keyf r) = true := by
    rw [hk, any_key_eq_lookupKey_isSome, hb]; simp
  rw [if_neg hany, lookupKey_append_single, hb, hk]
  simp

theorem stepByKey_keys_nodup (keyf : α → String) (mk : α → β) (upd : β → α → β)
    (acc : List (String × β)) (r : α) (h : (acc.map (fun p => p.1)).Nodup) :
    ((stepByKey keyf mk upd acc r).map (fun p => p.1)).Nodup := by
  unfold stepByKey
  by_cases hany : acc.any (fun p => p.1 = keyf r) = true
  · rw [if_pos hany, updAssoc_keys]; exact h
  · rw [if_neg hany, List.map_append]
    have hnotin : keyf r ∉ acc.map (fun p => p.1) := by
      intro hmem
      apply hany
      rw [List.any_eq_true]
      obtain ⟨p, hp, hpe⟩ := List.mem_map.mp hmem
      exact ⟨p, hp, by simp [hpe]⟩
    simp [List.nodup_append, h, hnotin]

theorem stepByKey_keys_mem (keyf : α → String) (mk : α → β) (upd : β → α → β)
    (acc : List (String × β)) (r : α) (k : String) :
    k ∈ (stepByKey keyf mk upd acc r).map (fun p => p.1) ↔
      k ∈ acc.map (fun p => p.1) ∨ k = keyf r := by
  unfold stepByKey
  by_cases hany : acc.any (fun p => p.1 = keyf r) = true
  · rw [if_pos hany, updAssoc_keys]
    constructor
    · exact Or.inl
    · rintro (h | rfl)
      · exact h
      · obtain ⟨p, hp, hpe⟩ := List.any_eq_true.mp hany
        exact List.mem_map.mpr ⟨p, hp, by simpa using hpe⟩
  · rw [if_neg hany, List.map_append]
    simp [eq_comm]

theorem foldl_stepByKey_keys_nodup (keyf : α → String) (mk : α → β) (upd : β → α → β) :
    ∀ (rows : List α) (acc : List (String × β)), (acc.map (fun p => p.1)).Nodup →
      ((rows.foldl (stepByKey keyf mk upd) acc).map (fun p => p.1)).Nodup := by
  intro rows
  induction rows with
  | nil => intro acc hacc; exact hacc
  | cons r rs ih =>
    intro acc hacc
    rw [List.foldl_cons]
    exact ih _ (stepByKey_keys_nodup keyf mk upd acc r hacc)

theorem foldl_stepByKey_keys_mem (keyf : α → String) (mk : α → β) (upd : β → α → β) :
    ∀ (rows : List α) (acc : List (String × β)) (k : String),
      k ∈ (rows.foldl (stepByKey keyf mk upd) acc).map (fun p => p.1) ↔
        k ∈ acc.map (fun p => p.1) ∨ k ∈ rows.map keyf := by
  intro rows
  induction rows with
  | nil => intro acc k; simp
  | cons r rs ih =>
    intro acc k
    rw [List.foldl_cons, ih, stepByKey_keys_mem]
    simp [List.mem_cons]
    tauto

theorem foldl_stepByKey_lookup (keyf : α → String) (mk : α → β) (upd : β → α → β) :
    ∀ (rows : List α) (acc : List (String × β)), (acc.map (fun p => p.1)).Nodup →
    ∀ k : String,
    lookupKey (rows.foldl (stepByKey keyf mk upd) acc) k =
      (match lookupKey acc k with
       | some b => some ((rows.filter (fun r => keyf r = k)).foldl upd b)
       | none =>
         (rows.filter (fun r => keyf r = k)).head?.map
           (fun r0 => ((rows.filter (fun r => keyf r = k)).foldl upd (mk r0)))) := by
  intro rows
  induction rows with
  | nil =>
    intro acc hacc k
    cases h : lookupKey acc k <;> simp [h]
  | cons r rs ih =>
    intro acc hacc k
    rw [List.foldl_cons]
    have hacc' := stepByKey_keys_nodup keyf mk upd acc r hacc
    rw [ih _ hacc' k]
    by_cases hk : keyf r = k
    · rw [List.filter_cons_of_pos (by simp [hk])]
      cases hb : lookupKey acc k with
      | some b =>
        rw [lookupKey_stepByKey_eq_some keyf mk upd acc r k b hk hb]
        simp [List.foldl_cons]
      | none =>
        rw [lookupKey_stepByKey_eq_none keyf mk upd acc r k hk hb]
        simp [List.foldl_cons]
    · rw [List.filter_cons_of_neg (by simp [hk])]
      rw [lookupKey_stepByKey_ne keyf mk upd acc r k hk]

theorem lookupKey_of_mem_nodup (acc : List (String × β)) (k : String) (b : β)
    (h : (acc.map (fun p => p.1)).Nodup) (hmem : (k, b) ∈ acc) :
    lookupKey acc k = some b := by
  induction acc with
  | nil => cases hmem
  | cons p ps ih =>
    rcases List.mem_cons.mp hmem with heq | hmem'
    · cases heq
      simp [lookupKey, List.find?_cons]
    · have hp : ¬ p.1 = k := by
        intro hpk
        have hk : k ∈ ps.map (fun p => p.1) := List.mem_map.mpr ⟨(k, b), hmem', rfl⟩
        rw [List.map_cons, List.nodup_cons] at h
        exact h.1 (hpk ▸ hk)
      simp only [lookupKey, List.find?_cons, hp, if_false]
      rw [List.map_cons, List.nodup_cons] at h
      simpa [lookupKey] using ih h.2 hmem'

theorem lookupKey_setProp_self (r : List (String × β)) (k : String) (v : β) :
    lookupKey (setProp r k v) k = some v := by
  unfold setProp
  by_cases hany : r.any (fun p => p.1 = k) = true
  · rw [if_pos hany]
    rw [any_key_eq_lookupKey_isSome] at hany
    obtain ⟨b0, hb0⟩ := Option.isSome_iff_exists.mp hany
    exact lookupKey_updAssoc_self r k _ b0 hb0
  · rw [if_neg hany, lookupKey_append_single]
    rw [any_key_eq_lookupKey_isSome] at hany
    have hnone : lookupKey r k = none := by
      cases h : lookupKey r k
      · rfl
      · rw [h] at hany; simp at hany
    rw [hnone]
    simp

theorem lookupKey_setProp_ne (r : List (String × β)) (k0 k : String) (v : β)
    (hne : k0 ≠ k) :
    lookupKey (setProp r k0 v) k = lookupKey r k := by
  unfold setProp
  by_cases hany : r.any (fun p => p.1 = k0) = true
  · rw [if_pos hany]
    exact lookupKey_updAssoc_ne r k0 k _ hne
  · rw [if_neg hany, lookupKey_append_single]
    cases h : lookupKey r k <;> simp [h, hne]

theorem readProp_eq_lookupKey (r : GObj) (k : String) :
    readProp r k = (lookupKey r k).getD .undefined := rfl

theorem readProp_setProp_self (r : GObj) (k : String) (v : PropVal) :
    readProp (setProp r k v) k = v := by
  rw [readProp_eq_lookupKey, lookupKey_setProp_self]
  rfl

theorem readProp_setProp_ne (r : GObj) (k0 k : String) (v : PropVal) (hne : k0 ≠ k) :
    readProp (setProp r k0 v) k = readProp r k := by
  rw [readProp_eq_lookupKey, lookupKey_setProp_ne r k0 k v hne, readProp_eq_lookupKey]

/-- The freshly created result object has y and count properties 0,
provided the group-by name collides with neither and the y axis is not
literally called "count" (the x axis may collide freely: it is assigned
first). -/
theorem mkGroupRow_props (cfg : ChartConfig) (g : String) (r : RRow)
    (hyc : cfg.yAxis ≠ "count") (hgy : g ≠ cfg.yAxis) (hgc : g ≠ "count") :
    readProp (mkGroupRow cfg g r) cfg.yAxis = .js (.num 0) ∧
    readProp (mkGroupRow cfg g r) "count" = .js (.num 0) := by
  simp only [mkGroupRow]
  constructor
  · rw [readProp_setProp_ne _ g _ _ hgy, readProp_setProp_ne _ "count" _ _ (Ne.symm hyc),
      readProp_setProp_self]
  · rw [readProp_setProp_ne _ g _ _ hgc, readProp_setProp_self]

/-- Folding the two `+=` updates over rows keeps the y property the
running sum and the count property the running count, under the same
non-collision conditions. -/
theorem updGroupRow_fold (cfg : ChartConfig) (hyc : cfg.yAxis ≠ "count") :
    ∀ (rk : List RRow) (b : GObj) (s c : ℚ),
    readProp b cfg.yAxis = .js (.num s) → readProp b "count" = .js (.num c) →
    readProp (rk.foldl (updGroupRow cfg) b) cfg.yAxis
        = .js (.num (s + (rk.map (yNum cfg)).sum)) ∧
    readProp (rk.foldl (updGroupRow cfg) b) "count"
        = .js (.num (c + rk.length)) := by
  intro rk
  induction rk with
  | nil => intro b s c hy hc; simp [hy, hc]
  | cons r rs ih =>
    intro b s c hy hc
    rw [List.foldl_cons]
    have hb1y : readProp (setProp b cfg.yAxis
          (jsPlusNum (readProp b cfg.yAxis) (yNum cfg r))) cfg.yAxis
        = .js (.num (s + yNum cfg r)) := by
      rw [readProp_setProp_self, hy]
      rfl
    have hb1c : readProp (setProp b cfg.yAxis
          (jsPlusNum (readProp b cfg.yAxis) (yNum cfg r))) "count"
        = .js (.num c) := by
      rw [readProp_setProp_ne _ _ _ _ hyc]
      exact hc
    have hy' : readProp (updGroupRow cfg b r) cfg.yAxis = .js (.num (s + yNum cfg r)) := by
      simp only [updGroupRow]
      rw [readProp_setProp_ne _ "count" _ _ (Ne.symm hyc)]
      exact hb1y
    have hc' : readProp (updGroupRow cfg b r) "count" = .js (.num (c + 1)) := by
      simp only [updGroupRow]
      rw [readProp_setProp_self, hb1c]
      rfl
    obtain ⟨ry, rc⟩ := ih (updGroupRow cfg b r) (s + yNum cfg r) (c + 1) hy' hc'
    constructor
    · rw [ry, List.map_cons, List.sum_cons]
      congr 2
      ring
    · rw [rc, List.length_cons]
      congr 2
      push_cast
      ring

theorem pfold_value (cfg : ChartConfig) (rk : List RRow) (b : PieRow) :
    (rk.foldl (fun b r => { b with value := b.value + yNum cfg r }) b).value
        = b.value + (rk.map (yNum cfg)).sum := by
  induction rk generalizing b with
  | nil => simp
  | cons r rs ih =>
    rw [List.foldl_cons, ih]
    simp [add_assoc]

/-- C4 (amended): with a truthy group-by configured, `processDataForChart`
returns the values of the object keyed by the string `xValue_groupValue`
(insertion order): exactly one output row per distinct such key among the
retained rows.  Provided the configured names do not collide (the y axis
is not literally called "count", and the group-by name differs from the y
axis and from "count" — the rows are JS objects with computed property
names, so colliding names share one property and the aggregates merge),
that row's y property is the number summing the y values and its count
property the number of rows with that key.  Distinct (X, group) pairs
whose concatenations collide (e.g. ("a_b","c") and ("a","b_c")) are
merged into one row. -/
theorem C4_groupby_aggregation (data : List Json) (cfg : ChartConfig) (g : String)
    (hgb : cfg.gbVal = some g)
    (hyc : cfg.yAxis ≠ "count") (hgy : g ≠ cfg.yAxis) (hgc : g ≠ "count") :
    processDataForChart data cfg =
      ChartOut.grouped ((groupedAssoc cfg g (processedRows data cfg)).map (fun p => p.2)) ∧
    ((groupedAssoc cfg g (processedRows data cfg)).map (fun p => p.1)).Nodup ∧
    (∀ k : String, k ∈ (groupedAssoc cfg g (processedRows data cfg)).map (fun p => p.1) ↔
        k ∈ (processedRows data cfg).map (rowKey cfg g)) ∧
    (∀ (k : String) (row : GObj), (k, row) ∈ groupedAssoc cfg g (processedRows data cfg) →
        readProp row cfg.yAxis = .js (.num
          ((((processedRows data cfg).filter (fun r => rowKey cfg g r = k)).map
            (yNum cfg)).sum)) ∧
        readProp row "count" = .js (.num
          ((((processedRows data cfg).filter (fun r => rowKey cfg g r = k)).length : ℚ)))) := by
  refine ⟨?_, ?_, ?_, ?_⟩
  · unfold processDataForChart
    rw [hgb]
  · exact foldl_stepByKey_keys_nodup _ _ _ _ [] (by simp)
  · intro k
    rw [groupedAssoc, reduceByKey, foldl_stepByKey_keys_mem]
    simp [rowKey]
  · intro k row hmem
    have hnd : ((groupedAssoc cfg g (processedRows data cfg)).map (fun p => p.1)).Nodup :=
      foldl_stepByKey_keys_nodup _ _ _ _ [] (by simp)
    have hlk := lookupKey_of_mem_nodup _ k row hnd hmem
    rw [groupedAssoc, reduceByKey] at hlk
    rw [foldl_stepByKey_lookup _ _ _ _ [] (by simp) k] at hlk
    simp only [show lookupKey ([] : List (String × GObj)) k = none from rfl] at hlk
    cases hfil : (processedRows data cfg).filter (fun r => rowKey cfg g r = k) with
    | nil => rw [hfil] at hlk; cases hlk
    | cons r0 t =>
      rw [hfil] at hlk
      simp only [List.head?_cons, Option.map_some] at hlk
      obtain rfl := Option.some.inj hlk
      obtain ⟨h0y, h0c⟩ := mkGroupRow_props cfg g r0 hyc hgy hgc
      obtain ⟨ry, rc⟩ := updGroupRow_fold cfg hyc (r0 :: t) (mkGroupRow cfg g r0) 0 0 h0y h0c
      exact ⟨by simpa using ry, by simpa using rc⟩

/-- C5 (amended): for a pie chart with NO group-by configured,
`processDataForChart` collapses the retained rows by the string coercion
of the X value: one output row per distinct coerced X value, whose
"value" field is the sum of the y values of the rows sharing it.  (With a
group-by configured, the group-by branch returns first and no pie
aggregation happens — see the counterexample.) -/
theorem C5_pie_aggregation (data : List Json) (cfg : ChartConfig)
    (ht : cfg.type = CType.pie) (hgb : cfg.gbVal = none) :
    processDataForChart data cfg =
      ChartOut.pie ((pieAssoc cfg (processedRows data cfg)).map (fun p => p.2)) ∧
    ((pieAssoc cfg (processedRows data cfg)).map (fun p => p.1)).Nodup ∧
    (∀ k : String, k ∈ (pieAssoc cfg (processedRows data cfg)).map (fun p => p.1) ↔
        k ∈ (processedRows data cfg).map (fun r => jsToStringU (getVal r cfg.xAxis))) ∧
    (∀ (k : String) (pr : PieRow), (k, pr) ∈ pieAssoc cfg (processedRows data cfg) →
        pr.value = (((processedRows data cfg).filter
            (fun r => jsToStringU (getVal r cfg.xAxis) = k)).map (yNum cfg)).sum) := by
  refine ⟨?_, ?_, ?_, ?_⟩
  · unfold processDataForChart
    simp only [hgb]
    rw [if_pos ht]
  · exact foldl_stepByKey_keys_nodup _ _ _ _ [] (by simp)
  · intro k
    rw [pieAssoc, reduceByKey, foldl_stepByKey_keys_mem]
    simp
  · intro k pr hmem
    have hnd : ((pieAssoc cfg (processedRows data cfg)).map (fun p => p.1)).Nodup :=
      foldl_stepByKey_keys_nodup _ _ _ _ [] (by simp)
    have hlk := lookupKey_of_mem_nodup _ k pr hnd hmem
    rw [pieAssoc, reduceByKey] at hlk
    rw [foldl_stepByKey_lookup _ _ _ _ [] (by simp) k] at hlk
    simp only [show lookupKey ([] : List (String × PieRow)) k = none from rfl] at hlk
    cases hfil : (processedRows data cfg).filter
        (fun r => jsToStringU (getVal r cfg.xAxis) = k) with
    | nil => rw [hfil] at hlk; cases hlk
    | cons r0 t =>
      rw [hfil] at hlk
      simp only [List.head?_cons, Option.map_some] at hlk
      obtain rfl := Option.some.inj hlk
      have hpf := pfold_value cfg (r0 :: t) { name := getVal r0 cfg.xAxis, value := 0 }
      simpa using hpf

/-- C10: every row of the intermediate processed list has a defined x
value and a numeric y value (numeric strings were coerced by `coerceY`
inside `procItem`); rows failing this are dropped by the filter, and in
the plain case (no truthy group-by, non-pie) the processed rows are
returned as they are. -/
theorem C10_processed_rows (data : List Json) (cfg : ChartConfig) :
    (∀ r ∈ processedRows data cfg, (getVal r cfg.xAxis).isSome = true ∧
        ∃ q : ℚ, getVal r cfg.yAxis = some (Json.num q)) ∧
    (cfg.gbVal = none → cfg.type ≠ CType.pie →
        processDataForChart data cfg = ChartOut.plain (processedRows data cfg)) := by
  constructor
  · intro r hr
    unfold processedRows at hr
    have hk : keepRow cfg r = true := List.of_mem_filter hr
    unfold keepRow at hk
    rw [Bool.and_eq_true] at hk
    refine ⟨hk.1, ?_⟩
    have h2 := hk.2
    cases hv : getVal r cfg.yAxis with
    | none => rw [hv] at h2; cases h2
    | some v =>
      rw [hv] at h2
      cases v with
      | num q => exact ⟨q, rfl⟩
      | null => cases h2
      | bool b => cases h2
      | str s => cases h2
      | arr xs => cases h2
      | obj kvs => cases h2
  · intro h1 h2
    unfold processDataForChart
    simp only [h1]
    rw [if_neg h2]

/-- C4 counterexample: the rows (x="a_b", g="c") and (x="a", g="b_c")
form two distinct (X, group) pairs, but both have the grouping key
"a_b_c", so only one output row is produced (y summed to 2, count 2),
not one row per distinct pair. -/
theorem C4_counterexample :
    processDataForChart
      [Json.obj [("x", Json.str "a_b"), ("y", Json.num 1), ("g", Json.str "c")],
       Json.obj [("x", Json.str "a"), ("y", Json.num 1), ("g", Json.str "b_c")]]
      { type := CType.bar, xAxis := "x", yAxis := "y", groupBy := some "g", title := "" }
      = ChartOut.grouped
          [[("x", PropVal.js (Json.str "a_b")), ("y", PropVal.js (Json.num 2)),
            ("count", PropVal.js (Json.num 2)), ("g", PropVal.js (Json.str "c"))]] ∧
    (Json.str "a_b", Json.str "c") ≠ (Json.str "a", Json.str "b_c") := by
  constructor
  · simp [processDataForChart, processedRows, procItem, keepRow, getVal, jsLookup,
      flattenData, flattenKVs, flattenEntryV, dotJoin, coerceY, jsStringToNum,
      parseUnsignedDec, parseExpPart, jsWhitespace, ChartConfig.gbVal,
      groupedAssoc, reduceByKey, stepByKey, updAssoc, rowKey, jsToStringU, jsToString,
      yNum, mkGroupRow, updGroupRow, setProp, readProp, jsPlusNum, propOfOpt]
    norm_num
  · simp

/-- C5 counterexample: with type "pie" AND a group-by configured, the
group-by branch runs instead of the pie aggregation: two rows sharing
X = "a" stay separate grouped rows with no "value" field, instead of
collapsing into one pie row with value 3. -/
theorem C5_counterexample :
    processDataForChart
      [Json.obj [("x", Json.str "a"), ("y", Json.num 1), ("g", Json.str "p")],
       Json.obj [("x", Json.str "a"), ("y", Json.num 2), ("g", Json.str "q")]]
      { type := CType.pie, xAxis := "x", yAxis := "y", groupBy := some "g", title := "" }
      = ChartOut.grouped
          [[("x", PropVal.js (Json.str "a")), ("y", PropVal.js (Json.num 1)),
            ("count", PropVal.js (Json.num 1)), ("g", PropVal.js (Json.str "p"))],
           [("x", PropVal.js (Json.str "a")), ("y", PropVal.js (Json.num 2)),
            ("count", PropVal.js (Json.num 1)), ("g", PropVal.js (Json.str "q"))]] := by
  simp [processDataForChart, processedRows, procItem, keepRow, getVal, jsLookup,
    flattenData, flattenKVs, flattenEntryV, dotJoin, coerceY, jsStringToNum,
    parseUnsignedDec, parseExpPart, jsWhitespace, ChartConfig.gbVal,
    groupedAssoc, reduceByKey, stepByKey, updAssoc, rowKey, jsToStringU, jsToString,
    yNum, mkGroupRow, updGroupRow, setProp, readProp, jsPlusNum, propOfOpt]

/-- C4 witness: the grouped branch evaluated on a one-row dataset. -/
theorem C4_witness :
    processDataForChart
      [Json.obj [("x", Json.str "a"), ("y", Json.num 1), ("g", Json.str "p")]]
      { type := CType.bar, xAxis := "x", yAxis := "y", groupBy := some "g", title := "" }
      = ChartOut.grouped ((groupedAssoc
          { type := CType.bar, xAxis := "x", yAxis := "y", groupBy := some "g", title := "" } "g"
          (processedRows
            [Json.obj [("x", Json.str "a"), ("y", Json.num 1), ("g", Json.str "p")]]
            { type := CType.bar, xAxis := "x", yAxis := "y", groupBy := some "g",
              title := "" })).map (fun p => p.2)) :=
  (C4_groupby_aggregation
    [Json.obj [("x", Json.str "a"), ("y", Json.num 1), ("g", Json.str "p")]]
    { type := CType.bar, xAxis := "x", yAxis := "y", groupBy := some "g", title := "" }
    "g" rfl (by decide) (by decide) (by decide)).1

/-- With the y axis literally named "count", the computed property names
collide and the sum and the count merge into one property: one row with
y = 5 yields a single "count" property holding 6 (the non-collision
hypotheses of the grouping theorem are therefore necessary). -/
theorem groupRow_count_collision_merge :
    processDataForChart
      [Json.obj [("x", Json.str "a"), ("count", Json.num 5), ("g", Json.str "p")]]
      { type := CType.bar, xAxis := "x", yAxis := "count", groupBy := some "g", title := "" }
      = ChartOut.grouped
          [[("x", PropVal.js (Json.str "a")), ("count", PropVal.js (Json.num 6)),
            ("g", PropVal.js (Json.str "p"))]] := by
  simp [processDataForChart, processedRows, procItem, keepRow, getVal, jsLookup,
    flattenData, flattenKVs, flattenEntryV, dotJoin, coerceY, jsStringToNum,
    parseUnsignedDec, parseExpPart, jsWhitespace, ChartConfig.gbVal,
    groupedAssoc, reduceByKey, stepByKey, updAssoc, rowKey, jsToStringU, jsToString,
    yNum, mkGroupRow, updGroupRow, setProp, readProp, jsPlusNum, propOfOpt]
  norm_num

/-- C5 witness: the pie branch evaluated on a one-row dataset. -/
theorem C5_witness :
    processDataForChart
      [Json.obj [("x", Json.str "a"), ("y", Json.num 1)]]
      { type := CType.pie, xAxis := "x", yAxis := "y", groupBy := none, title := "" }
      = ChartOut.pie ((pieAssoc
          { type := CType.pie, xAxis := "x", yAxis := "y", groupBy := none, title := "" }
          (processedRows
            [Json.obj [("x", Json.str "a"), ("y", Json.num 1)]]
            { type := CType.pie, xAxis := "x", yAxis := "y", groupBy := none,
              title := "" })).map (fun p => p.2)) :=
  (C5_pie_aggregation
    [Json.obj [("x", Json.str "a"), ("y", Json.num 1)]]
    { type := CType.pie, xAxis := "x", yAxis := "y", groupBy := none, title := "" }
    rfl rfl).1

/-- C10 witness: a concrete retained row has a defined x and numeric y. -/
theorem C10_witness :
    (getVal [("x", some (Json.str "p")), ("y", some (Json.num 7))] "x").isSome = true ∧
    ∃ q : ℚ, getVal [("x", some (Json.str "p")), ("y", some (Json.num 7))] "y"
      = some (Json.num q) :=
  (C10_processed_rows [Json.obj [("x", Json.str "p"), ("y", Json.num 7)]]
      { type := CType.bar, xAxis := "x", yAxis := "y", groupBy := none, title := "" }).1
    [("x", some (Json.str "p")), ("y", some (Json.num 7))]
    (by rw [show processedRows [Json.obj [("x", Json.str "p"), ("y", Json.num 7)]]
            { type := CType.bar, xAxis := "x", yAxis := "y", groupBy := none, title := "" }
          = [[("x", some (Json.str "p")), ("y", some (Json.num 7))]] from rfl]
        exact List.mem_singleton.mpr rfl)
